import Mathlib

/-!
Verification of the task-management core: the task status state machine,
the permission evaluation used by the update / status-change / delete /
assign use cases, and the create/update validation rules.  All functions
are shallow embeddings of the TypeScript source (domain/Task.ts, the task
use cases, and MongoTaskRepository).  Machine dates are modelled as Int
timestamps; JavaScript string falsiness (empty string) is modelled
explicitly where the source relies on it.
-/

namespace TaskMgmt

/-- TaskStatus enum from domain/Task.ts (string enum values given by statusStr). -/
inductive TaskStatus
  | todo
  | in_progress
  | review
  | done
deriving DecidableEq, Repr

/-- String value of each TaskStatus member, as declared in the enum. -/
def statusStr : TaskStatus → String
  | .todo => "todo"
  | .in_progress => "in_progress"
  | .review => "review"
  | .done => "done"

/-- Object.values(TaskStatus), in declaration order. -/
def taskStatusValues : List TaskStatus :=
  [.todo, .in_progress, .review, .done]

/-- Runtime parse of a status string into the enum (membership test of
validateInput, expressed as an inverse of statusStr where defined). -/
def parseStatus (s : String) : Option TaskStatus :=
  if s = "todo" then some .todo
  else if s = "in_progress" then some .in_progress
  else if s = "review" then some .review
  else if s = "done" then some .done
  else none

/-- TaskPriority enum from domain/Task.ts. -/
inductive TaskPriority
  | low
  | medium
  | high
  | urgent
deriving DecidableEq, Repr

/-- Task entity (domain/Task.ts).  Dates are Int timestamps; optional
fields are Option. -/
structure Task where
  id : String
  title : String
  description : String
  status : TaskStatus
  priority : TaskPriority
  dueDate : Option Int
  assigneeId : Option String
  projectId : String
  createdBy : String
  tags : List String
  createdAt : Int
  updatedAt : Int
deriving DecidableEq, Repr

/-- Error kinds thrown by the use cases (api/middleware/errorHandler plus
the bare Error used on repository write failure). -/
inductive AppError
  | validation (msg : String)
  | notFound (msg : String)
  | forbidden (msg : String)
  | internal (msg : String)
deriving DecidableEq, Repr

/-- The validTransitions table, identical in
UpdateTaskStatusUseCase.validateStatusTransition and
UpdateTaskUseCase.validateStatusTransition. -/
def validTransitions : TaskStatus → List TaskStatus
  | .todo => [.in_progress, .review]
  | .in_progress => [.review, .todo]
  | .review => [.done, .in_progress]
  | .done => [.todo, .in_progress]

/-- The joined legal-next-state list used in the error message
(validTransitions[currentStatus].join(", ")). -/
def joinStatuses (l : List TaskStatus) : String :=
  String.intercalate ", " (l.map statusStr)

/-- UpdateTaskStatusUseCase.validateStatusTransition: rejects a requested
status outside the current adjacency list with a ValidationError whose
message ends with the list of valid transitions from the current status. -/
def statusUC.validateStatusTransition (currentStatus newStatus : TaskStatus) :
    Except AppError Unit :=
  if newStatus ∈ validTransitions currentStatus then .ok ()
  else .error (.validation
    ("Invalid status transition from " ++ statusStr currentStatus ++ " to " ++
      statusStr newStatus ++ ". " ++ "Valid transitions from " ++
      statusStr currentStatus ++ ": " ++ joinStatuses (validTransitions currentStatus)))

/-- UpdateTaskUseCase.validateStatusTransition: same table, shorter message
(no enumeration of the legal next states). -/
def updateUC.validateStatusTransition (currentStatus newStatus : TaskStatus) :
    Except AppError Unit :=
  if newStatus ∈ validTransitions currentStatus then .ok ()
  else .error (.validation
    ("Invalid status transition from " ++ statusStr currentStatus ++ " to " ++
      statusStr newStatus))

/-- The adjacency relation exactly as the table of spec section 4.2 spells
it out, written independently of validTransitions for comparison. -/
def specTableAllows (cur req : TaskStatus) : Prop :=
  (cur = .todo ∧ (req = .in_progress ∨ req = .review)) ∨
  (cur = .in_progress ∧ (req = .review ∨ req = .todo)) ∨
  (cur = .review ∧ (req = .done ∨ req = .in_progress)) ∨
  (cur = .done ∧ (req = .todo ∨ req = .in_progress))

instance : DecidablePred fun p : TaskStatus × TaskStatus => specTableAllows p.1 p.2 :=
  fun p => by unfold specTableAllows; infer_instance

/-- A TaskProps patch with every field optional: present (some) or absent
(none).  Key order follows the TaskProps interface declaration, which is
the insertion order Object.keys observes for a literal built from it. -/
structure TaskPatch where
  id : Option String := none
  title : Option String := none
  description : Option String := none
  status : Option TaskStatus := none
  priority : Option TaskPriority := none
  dueDate : Option Int := none
  assigneeId : Option String := none
  projectId : Option String := none
  createdBy : Option String := none
  tags : Option (List String) := none
  createdAt : Option Int := none
  updatedAt : Option Int := none
deriving DecidableEq, Repr

/-- Object.keys of a patch: the names of the present fields, in
declaration order. -/
def patchKeys (p : TaskPatch) : List String :=
  (if p.id.isSome then ["id"] else []) ++
  (if p.title.isSome then ["title"] else []) ++
  (if p.description.isSome then ["description"] else []) ++
  (if p.status.isSome then ["status"] else []) ++
  (if p.priority.isSome then ["priority"] else []) ++
  (if p.dueDate.isSome then ["dueDate"] else []) ++
  (if p.assigneeId.isSome then ["assigneeId"] else []) ++
  (if p.projectId.isSome then ["projectId"] else []) ++
  (if p.createdBy.isSome then ["createdBy"] else []) ++
  (if p.tags.isSome then ["tags"] else []) ++
  (if p.createdAt.isSome then ["createdAt"] else []) ++
  (if p.updatedAt.isSome then ["updatedAt"] else [])

/-- UpdateTaskStatusUseCase.validatePermissions: assignee or creator may
update the status; the admin flag is hardcoded to false in the source
(the requester role is not even an argument). -/
def statusUC.validatePermissions (task : Task) (requesterId : String) :
    Except AppError Unit :=
  let isAssignee := task.assigneeId == some requesterId
  let isCreator := task.createdBy == requesterId
  let isAdmin := false
  if !isAssignee && !isCreator && !isAdmin then
    .error (.forbidden "You do not have permission to update this task status")
  else .ok ()

/-- UpdateTaskUseCase.validatePermissions: admin flag hardcoded false;
creator has full permission; the assignee passes only for a patch whose
keys are status-only (status present, no key outside status/assigneeId,
and assigneeId absent). -/
def updateUC.validatePermissions (task : Task) (requesterId : String)
    (patch : TaskPatch) : Except AppError Unit :=
  let isAdmin := false
  let isCreator := task.createdBy == requesterId
  let isAssignee := task.assigneeId == some requesterId
  let isUpdatingStatus := (patchKeys patch).contains "status"
  let isUpdatingAssignee := (patchKeys patch).contains "assigneeId"
  let isUpdatingOtherFields :=
    (patchKeys patch).any fun k => !((["status", "assigneeId"] : List String).contains k)
  if isAdmin then .ok ()
  else if isCreator then .ok ()
  else if isAssignee && isUpdatingStatus && !isUpdatingOtherFields && !isUpdatingAssignee then
    .ok ()
  else .error (.forbidden "You do not have permission to update this task")

/-- DeleteTaskUseCase.validatePermissions: admin role string or creator. -/
def deleteUC.validatePermissions (task : Task) (requesterId : String)
    (requesterRole : Option String) : Except AppError Unit :=
  let isAdmin := requesterRole == some "admin"
  let isCreator := task.createdBy == requesterId
  if !isAdmin && !isCreator then
    .error (.forbidden "You do not have permission to delete this task")
  else .ok ()

/-- UserRole enum from domain/User.ts. -/
inductive UserRole
  | admin
  | manager
  | developer
  | viewer
deriving DecidableEq, Repr

/-- String value of each UserRole member. -/
def roleStr : UserRole → String
  | .admin => "admin"
  | .manager => "manager"
  | .developer => "developer"
  | .viewer => "viewer"

/-- An authenticated caller: id plus role, as produced by the auth
middleware. -/
structure Actor where
  id : String
  role : UserRole
deriving DecidableEq, Repr

/-- JavaScript truthiness of an optional string argument: undefined and
the empty string are falsy. -/
def optTruthy : Option String → Bool
  | none => false
  | some s => !(s == "")

/-- Repository state: the tasks collection (documents keyed by the id
field). -/
abbrev TaskStore := List Task

/-- MongoTaskRepository.findById: first document whose id field matches. -/
def findById (s : TaskStore) (id : String) : Option Task :=
  s.find? fun t => t.id == id

/-- findOneAndUpdate semantics: replace the first document matching the
id, leave the rest untouched. -/
def replaceFirst : TaskStore → String → Task → TaskStore
  | [], _, _ => []
  | u :: us, id, t2 => if u.id == id then t2 :: us else u :: replaceFirst us id t2

/-- deleteOne semantics: remove the first document matching the id. -/
def removeFirst : TaskStore → String → TaskStore
  | [], _ => []
  | u :: us, id => if u.id == id then us else u :: removeFirst us id

/-- MongoTaskRepository.update field merge: overlay the present patch
fields onto the stored document, with updatedAt refreshed and the id and
createdAt keys removed from the patch before the write (the source
deletes exactly those two keys, createdBy is not stripped). -/
def repoUpdateTask (t : Task) (p : TaskPatch) (now : Int) : Task :=
  { id := t.id
    title := p.title.getD t.title
    description := p.description.getD t.description
    status := p.status.getD t.status
    priority := p.priority.getD t.priority
    dueDate := if p.dueDate.isSome then p.dueDate else t.dueDate
    assigneeId := if p.assigneeId.isSome then p.assigneeId else t.assigneeId
    projectId := p.projectId.getD t.projectId
    createdBy := p.createdBy.getD t.createdBy
    tags := p.tags.getD t.tags
    createdAt := t.createdAt
    updatedAt := now }

/-- MongoTaskRepository.update: none when no document matches the id,
otherwise the new store plus the updated document. -/
def repoUpdate (s : TaskStore) (id : String) (p : TaskPatch) (now : Int) :
    Option (TaskStore × Task) :=
  match findById s id with
  | none => none
  | some t =>
    let t2 := repoUpdateTask t p now
    some (replaceFirst s id t2, t2)

/-- MongoTaskRepository.delete: the new store and whether deletedCount
was positive. -/
def repoDelete (s : TaskStore) (id : String) : TaskStore × Bool :=
  let s2 := removeFirst s id
  (s2, decide (s2.length < s.length))

/-- First index of a tag longer than 50 characters (the forEach in the
tag validation throws at the first offender). -/
def firstLongTag : List String → Nat → Option Nat
  | [], _ => none
  | tg :: ts, i => if tg.length > 50 then some i else firstLongTag ts (i + 1)

/-- A present, truthy (nonempty) string field violating a predicate. -/
def strFieldBad (o : Option String) (f : String → Bool) : Bool :=
  match o with
  | some s => !(s == "") && f s
  | none => false

/-- Present dueDate strictly before the clock instant (the source
comparison is strict less-than against new Date()). -/
def duePast (dd : Option Int) (now : Int) : Bool :=
  match dd with
  | some d => decide (d < now)
  | none => false

/-- AssignTask existence check: the requested assignee is missing from a
wired user repository (collaborator modelled as an existence test). -/
def userAbsent (users : Option (String → Bool)) (x : String) : Bool :=
  match users with
  | some chk => !(chk x)
  | none => false

/-- Truthy assigneeId referencing no existing user, when a user
repository is wired (collaborator modelled as an existence test). -/
def assigneeMissing (users : Option (String → Bool)) (a : Option String) : Bool :=
  match a, users with
  | some x, some chk => !(x == "") && !(chk x)
  | _, _ => false

/-- UpdateTaskUseCase.validateUpdateData: title 3 to 200 when present,
description at most 5000 when present, present dueDate not in the past,
at most 10 tags each at most 50 characters. -/
def updateUC.validateUpdateData (p : TaskPatch) (now : Int) : Except AppError Unit :=
  if strFieldBad p.title (fun t => t.length < 3 || t.length > 200) then
    .error (.validation "Title must be between 3 and 200 characters")
  else if strFieldBad p.description (fun d => d.length > 5000) then
    .error (.validation "Description must be at most 5000 characters")
  else if duePast p.dueDate now then
    .error (.validation "Due date cannot be in the past")
  else
    match p.tags with
    | some tags =>
      if tags.length > 10 then .error (.validation "Maximum 10 tags allowed")
      else
        match firstLongTag tags 0 with
        | some i =>
          .error (.validation
            ("Tag at position " ++ toString i ++ " must be at most 50 characters"))
        | none => .ok ()
    | none => .ok ()

/-- Creation input: Omit TaskProps id, createdAt, updatedAt.  Required
string fields model the undefined case as the (equally falsy) empty
string. -/
structure CreateTaskData where
  title : String
  description : String
  status : TaskStatus
  priority : TaskPriority
  dueDate : Option Int := none
  assigneeId : Option String := none
  projectId : String
  createdBy : String
  tags : Option (List String) := none
deriving DecidableEq, Repr

/-- CreateTaskUseCase.validateTaskData. -/
def createUC.validateTaskData (d : CreateTaskData) : Except AppError Unit :=
  if d.title == "" || d.projectId == "" || d.createdBy == "" then
    .error (.validation "Title, projectId, and createdBy are required")
  else if d.title.length < 3 || d.title.length > 200 then
    .error (.validation "Title must be between 3 and 200 characters")
  else if !(d.description == "") && d.description.length > 5000 then
    .error (.validation "Description must be at most 5000 characters")
  else
    match d.tags with
    | some tags =>
      if tags.length > 10 then .error (.validation "Maximum 10 tags allowed")
      else
        match firstLongTag tags 0 with
        | some i =>
          .error (.validation
            ("Tag at position " ++ toString i ++ " must be at most 50 characters"))
        | none => .ok ()
    | none => .ok ()

/-- Truthy createdBy missing from the user repository, when wired. -/
def creatorMissing (users : Option (String → Bool)) (d : CreateTaskData) : Bool :=
  match users with
  | some chk => !(chk d.createdBy)
  | none => false

/-- MongoTaskRepository.create: new Task from the props, fresh id and
timestamps. -/
def repoCreate (d : CreateTaskData) (newId : String) (now : Int) : Task :=
  { id := newId
    title := d.title
    description := d.description
    status := d.status
    priority := d.priority
    dueDate := d.dueDate
    assigneeId := d.assigneeId
    projectId := d.projectId
    createdBy := d.createdBy
    tags := d.tags.getD []
    createdAt := now
    updatedAt := now }

/-- CreateTaskUseCase.execute: validate data, then creator and assignee
existence when a user repository is wired, then the past dueDate check,
then persist. -/
def createUC.execute (users : Option (String → Bool)) (d : CreateTaskData)
    (now : Int) (newId : String) : Except AppError Task :=
  match createUC.validateTaskData d with
  | .error e => .error e
  | .ok _ =>
    if creatorMissing users d then
      .error (.notFound ("Creator with id " ++ d.createdBy ++ " not found"))
    else if assigneeMissing users d.assigneeId then
      .error (.notFound ("Assignee with id " ++ d.assigneeId.getD "" ++ " not found"))
    else if duePast d.dueDate now then
      .error (.validation "Due date cannot be in the past")
    else .ok (repoCreate d newId now)

/-- UpdateTaskUseCase.execute: load, permissions when requesterId is
truthy, field validation, assignee existence, transition check when
status is present, then the repository write. -/
def updateUC.execute (s : TaskStore) (users : Option (String → Bool)) (id : String)
    (p : TaskPatch) (requesterId : Option String) (now : Int) :
    Except AppError (TaskStore × Task) :=
  match findById s id with
  | none => .error (.notFound ("Task with id " ++ id ++ " not found"))
  | some task =>
    match (if optTruthy requesterId then
        updateUC.validatePermissions task (requesterId.getD "") p
      else .ok ()) with
    | .error e => .error e
    | .ok _ =>
      match updateUC.validateUpdateData p now with
      | .error e => .error e
      | .ok _ =>
        if assigneeMissing users p.assigneeId then
          .error (.notFound ("Assignee with id " ++ p.assigneeId.getD "" ++ " not found"))
        else
          match (match p.status with
            | some ns => updateUC.validateStatusTransition task.status ns
            | none => .ok ()) with
          | .error e => .error e
          | .ok _ =>
            match repoUpdate s id p now with
            | none => .error (.internal "Failed to update task")
            | some (s2, t2) => .ok (s2, t2)

/-- UpdateTaskStatusUseCase.execute: validateInput (ids nonempty, status
a recognized enum string) runs before the load, then permissions, then
the transition check, then a status-only repository write. -/
def statusUC.execute (s : TaskStore) (taskId : String) (newStatus : String)
    (requesterId : String) (now : Int) : Except AppError (TaskStore × Task) :=
  if taskId == "" then .error (.validation "Task ID is required")
  else if newStatus == "" then .error (.validation "Status is required")
  else if requesterId == "" then .error (.validation "Requester ID is required")
  else
    match parseStatus newStatus with
    | none =>
      .error (.validation ("Invalid status. Must be one of: " ++ joinStatuses taskStatusValues))
    | some ns =>
      match findById s taskId with
      | none => .error (.notFound ("Task with id " ++ taskId ++ " not found"))
      | some task =>
        match statusUC.validatePermissions task requesterId with
        | .error e => .error e
        | .ok _ =>
          match statusUC.validateStatusTransition task.status ns with
          | .error e => .error e
          | .ok _ =>
            match repoUpdate s taskId { status := some ns } now with
            | none => .error (.internal "Failed to update task status")
            | some (s2, t2) => .ok (s2, t2)

/-- AssignTaskUseCase.execute: validate input, load, assignee existence,
short-circuit without a write when the task is already assigned to that
user, otherwise one repository write.  The Nat in the result counts the
repository update calls (persistence writes).  The notification step is
log-only and swallowed, so it is not modelled. -/
def assignUC.execute (s : TaskStore) (users : Option (String → Bool))
    (taskId assigneeId : String) (now : Int) :
    Except AppError (TaskStore × Task × Nat) :=
  if taskId == "" then .error (.validation "Task ID is required")
  else if assigneeId == "" then .error (.validation "Assignee ID is required")
  else
    match findById s taskId with
    | none => .error (.notFound ("Task with id " ++ taskId ++ " not found"))
    | some task =>
      if userAbsent users assigneeId then
        .error (.notFound ("Assignee with id " ++ assigneeId ++ " not found"))
      else if task.assigneeId == some assigneeId then
        .ok (s, task, 0)
      else
        match repoUpdate s taskId { assigneeId := some assigneeId } now with
        | none => .error (.internal "Failed to assign task")
        | some (s2, t2) => .ok (s2, t2, 1)

/-- DeleteTaskUseCase.execute: load, permissions when requesterId is
truthy, then the repository delete. -/
def deleteUC.execute (s : TaskStore) (id : String) (requesterId : Option String)
    (requesterRole : Option String) : Except AppError (TaskStore × Bool) :=
  match findById s id with
  | none => .error (.notFound ("Task with id " ++ id ++ " not found"))
  | some task =>
    match (if optTruthy requesterId then
        deleteUC.validatePermissions task (requesterId.getD "") requesterRole
      else .ok ()) with
    | .error e => .error e
    | .ok _ => .ok (repoDelete s id)

/-- C1: validateTransition succeeds exactly on the pairs of the section 4.2
table (for both source copies of the validator), and every self-transition
fails with a ValidationError whose message ends with the enumeration of the
legal next states of the current status. -/
theorem c1_validateTransition (cur req : TaskStatus) :
    (statusUC.validateStatusTransition cur req = .ok () ↔ specTableAllows cur req) ∧
    (updateUC.validateStatusTransition cur req = .ok () ↔ specTableAllows cur req) ∧
    (∃ m, statusUC.validateStatusTransition cur cur = .error (.validation m) ∧
      ∃ p, m = p ++ joinStatuses (validTransitions cur)) := by
  refine ⟨?_, ?_, ?_⟩
  · cases cur <;> cases req <;> simp [statusUC.validateStatusTransition,
      validTransitions, specTableAllows]
  · cases cur <;> cases req <;> simp [updateUC.validateStatusTransition,
      validTransitions, specTableAllows]
  · cases cur <;> exact ⟨_, rfl, _, rfl⟩

/-- Helper: isSome is false exactly for none. -/
lemma isSome_false_iff {α : Type} (o : Option α) : o.isSome = false ↔ o = none := by
  cases o <;> simp

/-- Helper: any over a conditional singleton block of patchKeys. -/
lemma blockAny (c : Bool) (k : String) (f : String → Bool) :
    (if c then [k] else []).any f = (c && f k) := by
  cases c <;> simp

/-- Helper: membership in a conditional singleton block of patchKeys. -/
lemma blockMem (k : String) (c : Bool) (k2 : String) :
    (k ∈ if c then [k2] else []) ↔ (c = true ∧ k = k2) := by
  cases c <;> simp

/-- The some-key-outside-status-and-assigneeId test over Object.keys,
expressed by the presence flags of the ten other patch fields. -/
lemma otherFields_eq (p : TaskPatch) :
    ((patchKeys p).any fun k => !((["status", "assigneeId"] : List String).contains k)) =
      (p.id.isSome || p.title.isSome || p.description.isSome || p.priority.isSome ||
       p.dueDate.isSome || p.projectId.isSome || p.createdBy.isSome || p.tags.isSome ||
       p.createdAt.isSome || p.updatedAt.isSome) := by
  simp [patchKeys, List.any_append, blockAny, Bool.or_assoc]

/-- The status key is among Object.keys exactly when the status field is
present. -/
lemma mem_patchKeys_status (p : TaskPatch) :
    ("status" ∈ patchKeys p) ↔ p.status.isSome = true := by
  simp [patchKeys, List.mem_append, blockMem]

/-- The assigneeId key is among Object.keys exactly when the assigneeId
field is present. -/
lemma mem_patchKeys_assigneeId (p : TaskPatch) :
    ("assigneeId" ∈ patchKeys p) ↔ p.assigneeId.isSome = true := by
  simp [patchKeys, List.mem_append, blockMem]

/-- C2: for a non-empty patch, the general update-permission check allows
the creator for any field set; an assignee who is not the creator passes
exactly when the changed-field set is exactly the status key (status
present and every other field absent); everyone else gets ForbiddenError. -/
theorem c2_updatePermissions (t : Task) (r : String) (p : TaskPatch)
    (hne : patchKeys p ≠ []) :
    (t.createdBy = r → updateUC.validatePermissions t r p = .ok ()) ∧
    (t.createdBy ≠ r → t.assigneeId = some r →
      (updateUC.validatePermissions t r p = .ok () ↔
        (p.status.isSome ∧ p.id = none ∧ p.title = none ∧ p.description = none ∧
         p.priority = none ∧ p.dueDate = none ∧ p.assigneeId = none ∧
         p.projectId = none ∧ p.createdBy = none ∧ p.tags = none ∧
         p.createdAt = none ∧ p.updatedAt = none))) ∧
    (t.createdBy ≠ r → t.assigneeId ≠ some r →
      updateUC.validatePermissions t r p =
        .error (.forbidden "You do not have permission to update this task")) := by
  refine ⟨?_, ?_, ?_⟩
  · intro h
    simp [updateUC.validatePermissions, h]
  · intro hc ha
    simp only [updateUC.validatePermissions, otherFields_eq]
    simp [hc, ha, isSome_false_iff, mem_patchKeys_status, mem_patchKeys_assigneeId]
    tauto
  · intro hc ha
    simp [updateUC.validatePermissions, hc, ha]

/-- Witness for c2_updatePermissions: the assignee u2 of a concrete task
passes the general update check for a status-only patch. -/
theorem c2_updatePermissions_witness :
    updateUC.validatePermissions
      ⟨"t1", "Fix login bug", "", .todo, .medium, none, some "u2", "p1", "u1", [], 0, 0⟩
      "u2" { status := some .in_progress } = .ok () := by
  exact ((c2_updatePermissions
    ⟨"t1", "Fix login bug", "", .todo, .medium, none, some "u2", "p1", "u1", [], 0, 0⟩
    "u2" { status := some .in_progress } (by decide)).2.1
    (by decide) (by decide)).mpr (by decide)

/-- C3 counterexample: the claim says an ADMIN actor passes every
permission check, but the status-change and general update checks ignore
the role (the admin flag is hardcoded false), so admin u3, who is neither
creator u1 nor assignee u2 of the concrete task, is rejected by both. -/
theorem c3_counterexample :
    (Actor.mk "u3" UserRole.admin).role = UserRole.admin ∧
    statusUC.validatePermissions
      ⟨"t1", "Sample task one", "", .todo, .medium, none, some "u2", "p1", "u1", [], 0, 0⟩
      (Actor.mk "u3" UserRole.admin).id =
      .error (.forbidden "You do not have permission to update this task status") ∧
    updateUC.validatePermissions
      ⟨"t1", "Sample task one", "", .todo, .medium, none, some "u2", "p1", "u1", [], 0, 0⟩
      (Actor.mk "u3" UserRole.admin).id { title := some "New title" } =
      .error (.forbidden "You do not have permission to update this task") := by
  exact ⟨rfl, rfl, rfl⟩

/-- C3 amended: an ADMIN actor always passes the delete permission check;
the status-change and general update checks never consult the role, so an
admin passes the status check exactly as creator or assignee and is
rejected by the general update check when neither. -/
theorem c3_adminPermissions (t : Task) (a : Actor) (p : TaskPatch)
    (h : a.role = .admin) :
    deleteUC.validatePermissions t a.id (some (roleStr a.role)) = .ok () ∧
    (statusUC.validatePermissions t a.id = .ok () ↔
      (t.createdBy = a.id ∨ t.assigneeId = some a.id)) ∧
    (t.createdBy ≠ a.id → t.assigneeId ≠ some a.id →
      updateUC.validatePermissions t a.id p =
        .error (.forbidden "You do not have permission to update this task")) := by
  refine ⟨?_, ?_, ?_⟩
  · simp [deleteUC.validatePermissions, h, roleStr]
  · constructor
    · intro hok
      by_contra hcon
      push_neg at hcon
      simp [statusUC.validatePermissions, hcon.1, hcon.2] at hok
    · intro hor
      rcases hor with h1 | h1 <;> simp [statusUC.validatePermissions, h1]
  · intro hc ha
    simp [updateUC.validatePermissions, hc, ha]

/-- Witness for c3_adminPermissions at a concrete task and admin actor. -/
theorem c3_adminPermissions_witness :
    deleteUC.validatePermissions
      ⟨"t9", "Another sample", "", .todo, .medium, none, none, "p1", "u1", [], 0, 0⟩
      "u9" (some "admin") = .ok () ∧
    updateUC.validatePermissions
      ⟨"t9", "Another sample", "", .todo, .medium, none, none, "p1", "u1", [], 0, 0⟩
      "u9" { title := some "Renamed task" } =
      .error (.forbidden "You do not have permission to update this task") := by
  have h := c3_adminPermissions
    ⟨"t9", "Another sample", "", .todo, .medium, none, none, "p1", "u1", [], 0, 0⟩
    ⟨"u9", .admin⟩ { title := some "Renamed task" } rfl
  exact ⟨h.1, h.2.2 (by decide) (by decide)⟩

/-- C4 counterexample: the claim says the dedicated status-change check
also allows any actor with role ADMIN, but the check only compares the
requester id to createdBy and assigneeId (its admin flag is hardcoded
false and it receives no role), so the admin actor c is rejected on a
task created by a and assigned to b. -/
theorem c4_counterexample :
    (Actor.mk "c" UserRole.admin).role = UserRole.admin ∧
    statusUC.validatePermissions
      ⟨"t2", "Task number two", "", .review, .high, none, some "b", "p2", "a", [], 0, 0⟩
      (Actor.mk "c" UserRole.admin).id =
      .error (.forbidden "You do not have permission to update this task status") := by
  exact ⟨rfl, rfl⟩

/-- C4 amended: the dedicated status-change permission check allows a
requester exactly when they are the creator or the assignee; the role is
never consulted, and every other requester gets ForbiddenError. -/
theorem c4_statusPermissions (t : Task) (r : String) :
    (statusUC.validatePermissions t r = .ok () ↔
      (t.createdBy = r ∨ t.assigneeId = some r)) ∧
    (t.createdBy ≠ r → t.assigneeId ≠ some r →
      statusUC.validatePermissions t r =
        .error (.forbidden "You do not have permission to update this task status")) := by
  constructor
  · constructor
    · intro hok
      by_contra hcon
      push_neg at hcon
      simp [statusUC.validatePermissions, hcon.1, hcon.2] at hok
    · intro hor
      rcases hor with h1 | h1 <;> simp [statusUC.validatePermissions, h1]
  · intro hc ha
    simp [statusUC.validatePermissions, hc, ha]

/-- Witness for c4_statusPermissions at a concrete task and outsider
requester. -/
theorem c4_statusPermissions_witness :
    statusUC.validatePermissions
      ⟨"t3", "Task number three", "", .todo, .low, none, some "b", "p2", "a", [], 0, 0⟩
      "z" = .error (.forbidden "You do not have permission to update this task status") := by
  exact (c4_statusPermissions
    ⟨"t3", "Task number three", "", .todo, .low, none, some "b", "p2", "a", [], 0, 0⟩
    "z").2 (by decide) (by decide)

/-- Removing a found document shrinks the store. -/
lemma removeFirst_length_lt (s : TaskStore) (id : String) (t : Task)
    (h : findById s id = some t) : (removeFirst s id).length < s.length := by
  induction s with
  | nil => simp [findById] at h
  | cons u us ih =>
    cases hu : (u.id == id) with
    | true => simp [removeFirst, hu]
    | false =>
      have h2 : findById us id = some t := by
        simpa [findById, List.find?, hu] using h
      simpa [removeFirst, hu] using ih h2

/-- After removeFirst, a store whose documents have pairwise distinct ids
no longer contains a document with the removed id. -/
lemma findById_removeFirst (s : TaskStore) (id : String)
    (h : (s.map Task.id).Nodup) : findById (removeFirst s id) id = none := by
  induction s with
  | nil => simp [removeFirst, findById]
  | cons u us ih =>
    simp only [List.map_cons, List.nodup_cons] at h
    cases hu : (u.id == id) with
    | true =>
      have hid : u.id = id := by simpa using hu
      have hrem : removeFirst (u :: us) id = us := by simp [removeFirst, hu]
      rw [hrem, findById, List.find?_eq_none]
      intro x hx
      have : x.id ∈ us.map Task.id := List.mem_map_of_mem Task.id hx
      intro hbeq
      have hxid : x.id = id := by simpa using hbeq
      exact h.1 (by rw [hid]; rw [← hxid]; exact this)
    | false =>
      have := ih h.2
      simp only [removeFirst]
      rw [show (if (u.id == id) = true then us else u :: removeFirst us id) =
        u :: removeFirst us id by simp [hu]]
      simpa [findById, List.find?, hu] using this

/-- C5: for an existing task in a store with distinct ids and a supplied
actor (truthy id), DeleteTask removes the task and returns true exactly
when the actor role is ADMIN or the actor is the creator; every other
actor, in particular an assignee, gets ForbiddenError (and no new store
is produced, so nothing is deleted). -/
theorem c5_deleteTask (s : TaskStore) (id : String) (a : Actor) (t : Task)
    (hfind : findById s id = some t) (hid : a.id ≠ "")
    (hnodup : (s.map Task.id).Nodup) :
    ((a.role = .admin ∨ t.createdBy = a.id) →
      deleteUC.execute s id (some a.id) (some (roleStr a.role)) =
        .ok (removeFirst s id, true) ∧
      findById (removeFirst s id) id = none) ∧
    (a.role ≠ .admin → t.createdBy ≠ a.id →
      deleteUC.execute s id (some a.id) (some (roleStr a.role)) =
        .error (.forbidden "You do not have permission to delete this task")) := by
  have htr : optTruthy (some a.id) = true := by simp [optTruthy, hid]
  constructor
  · intro hor
    have hperm : deleteUC.validatePermissions t a.id (some (roleStr a.role)) = .ok () := by
      rcases hor with h1 | h1
      · simp [deleteUC.validatePermissions, h1, roleStr]
      · simp [deleteUC.validatePermissions, h1]
    refine ⟨?_, findById_removeFirst s id hnodup⟩
    simp only [deleteUC.execute, hfind, htr, if_pos rfl, Option.getD_some, hperm]
    simp [repoDelete, removeFirst_length_lt s id t hfind]
  · intro hrole hc
    have hra : (roleStr a.role == "admin") = false := by
      cases hr : a.role <;> simp_all [roleStr]
    have hperm : deleteUC.validatePermissions t a.id (some (roleStr a.role)) =
        .error (.forbidden "You do not have permission to delete this task") := by
      simp [deleteUC.validatePermissions, hra, hc]
    simp [deleteUC.execute, hfind, htr, hperm]

/-- Witness for c5_deleteTask: developer u3 (neither creator nor admin) is
refused; admin u9 deletes. -/
theorem c5_deleteTask_witness :
    deleteUC.execute
      [⟨"t1", "Fix login bug", "", .todo, .medium, none, some "u3", "p1", "u1", [], 0, 0⟩]
      "t1" (some "u3") (some "developer") =
      .error (.forbidden "You do not have permission to delete this task") ∧
    deleteUC.execute
      [⟨"t1", "Fix login bug", "", .todo, .medium, none, some "u3", "p1", "u1", [], 0, 0⟩]
      "t1" (some "u9") (some "admin") =
      .ok ([], true) := by
  constructor
  · exact (c5_deleteTask
      [⟨"t1", "Fix login bug", "", .todo, .medium, none, some "u3", "p1", "u1", [], 0, 0⟩]
      "t1" ⟨"u3", .developer⟩
      ⟨"t1", "Fix login bug", "", .todo, .medium, none, some "u3", "p1", "u1", [], 0, 0⟩
      rfl (by decide) (by simp)).2 (by decide) (by decide)
  · exact ((c5_deleteTask
      [⟨"t1", "Fix login bug", "", .todo, .medium, none, some "u3", "p1", "u1", [], 0, 0⟩]
      "t1" ⟨"u9", .admin⟩
      ⟨"t1", "Fix login bug", "", .todo, .medium, none, some "u3", "p1", "u1", [], 0, 0⟩
      rfl (by decide) (by simp)).1 (Or.inl rfl)).1

/-- After replaceFirst with a document carrying the same id, findById
returns the replacement. -/
lemma findById_replaceFirst (s : TaskStore) (id : String) (t t2 : Task)
    (hfind : findById s id = some t) (h2 : t2.id = id) :
    findById (replaceFirst s id t2) id = some t2 := by
  induction s with
  | nil => simp [findById] at hfind
  | cons u us ih =>
    cases hu : (u.id == id) with
    | true =>
      have hrep : replaceFirst (u :: us) id t2 = t2 :: us := by
        simp [replaceFirst, hu]
      rw [hrep]
      simp [findById, List.find?, h2]
    | false =>
      have hrep : replaceFirst (u :: us) id t2 = u :: replaceFirst us id t2 := by
        simp [replaceFirst, hu]
      have hf2 : findById us id = some t := by
        simpa [findById, List.find?, hu] using hfind
      rw [hrep]
      simpa [findById, List.find?, hu] using ih hf2

/-- C7: AssignTask is idempotent in its assignee.  When the found task is
already assigned to x the call returns the unchanged task, the unchanged
store and zero writes; when it is not, the first call performs exactly
one write and a second identical call is a zero-write no-op returning the
same task, so the pair of calls performs exactly one write. -/
theorem c7_assignIdempotent (users : Option (String → Bool)) (s : TaskStore)
    (tid x : String) (t : Task) (now now2 : Int)
    (htid : tid ≠ "") (hx : x ≠ "")
    (hfind : findById s tid = some t)
    (husr : userAbsent users x = false) :
    (t.assigneeId = some x → assignUC.execute s users tid x now = .ok (s, t, 0)) ∧
    (t.assigneeId ≠ some x →
      ∃ s1 t1, assignUC.execute s users tid x now = .ok (s1, t1, 1) ∧
        assignUC.execute s1 users tid x now2 = .ok (s1, t1, 0)) := by
  have h1 : (tid == "") = false := by simp [htid]
  have h2 : (x == "") = false := by simp [hx]
  have htideq : t.id = tid := by simpa using List.find?_some hfind
  constructor
  · intro ha
    simp [assignUC.execute, h1, h2, hfind, husr, ha]
  · intro hne
    have hbne : (t.assigneeId == some x) = false := by simpa using hne
    refine ⟨replaceFirst s tid (repoUpdateTask t { assigneeId := some x } now),
      repoUpdateTask t { assigneeId := some x } now, ?_, ?_⟩
    · simp [assignUC.execute, h1, h2, hfind, husr, hbne, repoUpdate]
    · have hf1 : findById (replaceFirst s tid (repoUpdateTask t { assigneeId := some x } now))
          tid = some (repoUpdateTask t { assigneeId := some x } now) :=
        findById_replaceFirst s tid t _ hfind (by simpa [repoUpdateTask] using htideq)
      have ha2 : (repoUpdateTask t { assigneeId := some x } now).assigneeId = some x := rfl
      simp [assignUC.execute, h1, h2, hf1, husr, ha2]

/-- Witness for c7_assignIdempotent: assigning an unassigned concrete task
to u2 twice writes once and returns the same task both times. -/
theorem c7_assignIdempotent_witness :
    ∃ s1 t1, assignUC.execute
        [⟨"t1", "Fix login bug", "", .todo, .medium, none, none, "p1", "u1", [], 0, 0⟩]
        none "t1" "u2" 5 = .ok (s1, t1, 1) ∧
      assignUC.execute s1 none "t1" "u2" 9 = .ok (s1, t1, 0) := by
  exact (c7_assignIdempotent none
    [⟨"t1", "Fix login bug", "", .todo, .medium, none, none, "p1", "u1", [], 0, 0⟩]
    "t1" "u2"
    ⟨"t1", "Fix login bug", "", .todo, .medium, none, none, "p1", "u1", [], 0, 0⟩
    5 9 (by decide) (by decide) rfl rfl).2 (by decide)

lemma firstLongTag_none_iff (tags : List String) (i : Nat) :
    firstLongTag tags i = none ↔ ∀ tg ∈ tags, tg.length ≤ 50 := by
  induction tags generalizing i with
  | nil => simp [firstLongTag]
  | cons a as ih =>
    by_cases ha : a.length > 50
    · simp only [firstLongTag, if_pos ha, List.forall_mem_cons]
      constructor
      · intro h
        cases h
      · intro h
        omega
    · simp only [firstLongTag, if_neg ha, List.forall_mem_cons, ih]
      constructor
      · intro h
        exact ⟨by omega, h⟩
      · intro h
        exact h.2

lemma validateTaskData_shape (d : CreateTaskData) :
    createUC.validateTaskData d = .ok () ∨
      ∃ m, createUC.validateTaskData d = .error (.validation m) := by
  unfold createUC.validateTaskData
  repeat' split
  all_goals first | exact Or.inl rfl | exact Or.inr ⟨_, rfl⟩

lemma validateTaskData_ok_of (d : CreateTaskData)
    (h : ¬(d.title = "" ∨ d.projectId = "" ∨ d.createdBy = "" ∨
        d.title.length < 3 ∨ d.title.length > 200 ∨ d.description.length > 5000 ∨
        ∃ tags, d.tags = some tags ∧ (tags.length > 10 ∨ ∃ tg ∈ tags, 50 < tg.length))) :
    createUC.validateTaskData d = .ok () := by
  push_neg at h
  obtain ⟨ht, hp, hc, hl1, hl2, hd, htags⟩ := h
  unfold createUC.validateTaskData
  have hb1 : (d.title == "" || d.projectId == "" || d.createdBy == "") = false := by
    simp [ht, hp, hc]
  have hb2 : (decide (d.title.length < 3) || decide (d.title.length > 200)) = false := by
    simp
    omega
  have hb3 : (!(d.description == "") && decide (d.description.length > 5000)) = false := by
    simp
    intro
    omega
  rcases hts : d.tags with _ | tags
  · simp [hb1, hb2, hb3]
  · obtain ⟨hlen, hall⟩ := htags tags hts
    have hfl : firstLongTag tags 0 = none :=
      (firstLongTag_none_iff tags 0).mpr fun tg htg => by have := hall tg htg; omega
    have hlen2 : ¬(tags.length > 10) := by omega
    simp [hb1, hb2, hb3, hfl, hlen2]

lemma validateTaskData_ok_implies (d : CreateTaskData)
    (hok : createUC.validateTaskData d = .ok ()) :
    ¬(d.title = "" ∨ d.projectId = "" ∨ d.createdBy = "" ∨
      d.title.length < 3 ∨ d.title.length > 200 ∨ d.description.length > 5000 ∨
      ∃ tags, d.tags = some tags ∧ (tags.length > 10 ∨ ∃ tg ∈ tags, 50 < tg.length)) := by
  unfold createUC.validateTaskData at hok
  split at hok
  next h1 => simp at hok
  next h1 =>
  split at hok
  next h2 => simp at hok
  next h2 =>
  split at hok
  next h3 => simp at hok
  next h3 =>
  simp only [Bool.or_eq_true, beq_iff_eq, not_or] at h1
  simp only [Bool.or_eq_true, decide_eq_true_eq, not_or] at h2
  have hdesc : ¬(d.description.length > 5000) := by
    intro h
    refine h3 ?_
    have hne : (d.description == "") = false := by
      have hne2 : ¬(d.description = "") := by
        intro he
        rw [he] at h
        simp at h
      simp [hne2]
    simp [hne, h]
  split at hok
  next tags heq =>
    split at hok
    next h4 => simp at hok
    next h4 =>
    split at hok
    next i heq2 => simp at hok
    next heq2 =>
    have hall := (firstLongTag_none_iff tags 0).mp heq2
    intro hR
    rcases hR with h | h | h | h | h | h | ⟨tags2, htg, hbad⟩
    · exact h1.1.1 h
    · exact h1.1.2 h
    · exact h1.2 h
    · exact h2.1 h
    · exact h2.2 h
    · exact hdesc h
    · rw [heq] at htg
      injection htg with htg2
      subst htg2
      rcases hbad with h | ⟨tg, htgm, hlong⟩
      · exact h4 (by omega)
      · have := hall tg htgm
        omega
  next heq =>
    intro hR
    rcases hR with h | h | h | h | h | h | ⟨tags2, htg, hbad⟩
    · exact h1.1.1 h
    · exact h1.1.2 h
    · exact h1.2 h
    · exact h2.1 h
    · exact h2.2 h
    · exact hdesc h
    · rw [heq] at htg
      cases htg

lemma validateTaskData_error_iff (d : CreateTaskData) :
    (∃ m, createUC.validateTaskData d = .error (.validation m)) ↔
      (d.title = "" ∨ d.projectId = "" ∨ d.createdBy = "" ∨
       d.title.length < 3 ∨ d.title.length > 200 ∨ d.description.length > 5000 ∨
       ∃ tags, d.tags = some tags ∧ (tags.length > 10 ∨ ∃ tg ∈ tags, 50 < tg.length)) := by
  constructor
  · rintro ⟨m, herr⟩
    by_contra hR
    rw [validateTaskData_ok_of d hR] at herr
    cases herr
  · intro hR
    rcases validateTaskData_shape d with hok | he
    · exact absurd hR (validateTaskData_ok_implies d hok)
    · exact he

/-- Widen a seven-way disjunction into the same disjunction with an
extra final alternative. -/
lemma orWiden {P Q R S T U V W : Prop} (h : P ∨ Q ∨ R ∨ S ∨ T ∨ U ∨ V) :
    P ∨ Q ∨ R ∨ S ∨ T ∨ U ∨ V ∨ W := by
  tauto

/-- Conclude an eight-way disjunction from its final alternative. -/
lemma orFinal {P Q R S T U V W : Prop} (h : W) :
    P ∨ Q ∨ R ∨ S ∨ T ∨ U ∨ V ∨ W := by
  tauto

/-- Drop a refuted final alternative from an eight-way disjunction. -/
lemma orDropFinal {P Q R S T U V W : Prop} (hw : ¬W) (h : P ∨ Q ∨ R ∨ S ∨ T ∨ U ∨ V ∨ W) :
    P ∨ Q ∨ R ∨ S ∨ T ∨ U ∨ V := by
  tauto

/-- Boolean past-due test holds exactly when a dueDate value below the
clock is present. -/
lemma duePast_true_iff (dd : Option Int) (now : Int) :
    duePast dd now = true ↔ ∃ d2, dd = some d2 ∧ d2 < now := by
  cases dd <;> simp [duePast]

/-- C6 amended: given that the creator and any supplied assignee resolve,
CreateTask fails with ValidationError exactly when a required field is
missing (falsy), the title length is outside 3 to 200, the description
exceeds 5000, more than 10 tags are given, some tag exceeds 50
characters, or a supplied dueDate lies strictly in the past; a dueDate
equal to the clock instant is accepted. -/
theorem c6_createValidation (users : Option (String → Bool)) (d : CreateTaskData)
    (now : Int) (newId : String)
    (hcreator : creatorMissing users d = false)
    (hassignee : assigneeMissing users d.assigneeId = false) :
    (∃ m, createUC.execute users d now newId = .error (.validation m)) ↔
      (d.title = "" ∨ d.projectId = "" ∨ d.createdBy = "" ∨
       d.title.length < 3 ∨ d.title.length > 200 ∨ d.description.length > 5000 ∨
       (∃ tags, d.tags = some tags ∧ (tags.length > 10 ∨ ∃ tg ∈ tags, 50 < tg.length)) ∨
       (∃ dd, d.dueDate = some dd ∧ dd < now)) := by
  rcases validateTaskData_shape d with hok | ⟨m, herr⟩
  · have hR7 := validateTaskData_ok_implies d hok
    unfold createUC.execute
    rw [hok]
    simp only [hcreator, Bool.false_eq_true, if_false]
    simp only [hassignee, Bool.false_eq_true, if_false]
    cases hdp : duePast d.dueDate now with
    | true =>
      simp only [hdp, if_true]
      refine iff_of_true ⟨_, rfl⟩ ?_
      have hdd := (duePast_true_iff d.dueDate now).mp hdp
      exact orFinal hdd
    | false =>
      simp only [hdp, Bool.false_eq_true, if_false]
      have hnd : ¬∃ d2, d.dueDate = some d2 ∧ d2 < now := by
        rw [← duePast_true_iff d.dueDate now]
        simp [hdp]
      refine iff_of_false (by simp) ?_
      exact fun hR => hR7 (orDropFinal hnd hR)
  · unfold createUC.execute
    rw [herr]
    refine iff_of_true ⟨m, rfl⟩ ?_
    exact orWiden ((validateTaskData_error_iff d).mp ⟨m, herr⟩)

/-- Witness for c6_createValidation: a two-character title is rejected
with a ValidationError. -/
theorem c6_createValidation_witness :
    ∃ m, createUC.execute none
      { title := "ab", description := "", status := .todo, priority := .medium,
        dueDate := none, assigneeId := none, projectId := "P1", createdBy := "U1",
        tags := none } 0 "T2" = .error (.validation m) := by
  exact (c6_createValidation none
    { title := "ab", description := "", status := .todo, priority := .medium,
      dueDate := none, assigneeId := none, projectId := "P1", createdBy := "U1",
      tags := none } 0 "T2" rfl rfl).mpr
    (Or.inr (Or.inr (Or.inr (Or.inl (by decide)))))

/-- C6 counterexample: the claim requires a dueDate equal to the creation
instant to be rejected, but the source comparison is strict (dueDate <
now), so creation at clock 1000 with dueDate 1000 succeeds. -/
theorem c6_counterexample :
    createUC.execute none
      { title := "Fix login bug", description := "", status := .todo, priority := .medium,
        dueDate := some 1000, assigneeId := none, projectId := "P1", createdBy := "U1",
        tags := none } 1000 "T1" =
      .ok { id := "T1", title := "Fix login bug", description := "", status := .todo,
            priority := .medium, dueDate := some 1000, assigneeId := none,
            projectId := "P1", createdBy := "U1", tags := [], createdAt := 1000,
            updatedAt := 1000 } := rfl

/-- A successful repository update found a document and produced the
merged document. -/
lemma repoUpdate_ok (s : TaskStore) (id : String) (p : TaskPatch) (now : Int)
    (s2 : TaskStore) (t2 : Task) (h : repoUpdate s id p now = some (s2, t2)) :
    ∃ t, findById s id = some t ∧ t2 = repoUpdateTask t p now := by
  unfold repoUpdate at h
  split at h
  next => cases h
  next t heq =>
    simp only [Option.some.injEq, Prod.mk.injEq] at h
    exact ⟨t, heq, h.2.symm⟩

/-- Shape of a successful UpdateTask run: the task was found and the
result is the repository merge of the patch over it. -/
lemma update_execute_ok_shape (s : TaskStore) (users : Option (String → Bool))
    (id : String) (p : TaskPatch) (rid : Option String) (now : Int)
    (s2 : TaskStore) (t2 : Task)
    (h : updateUC.execute s users id p rid now = .ok (s2, t2)) :
    ∃ t, findById s id = some t ∧ t2 = repoUpdateTask t p now := by
  unfold updateUC.execute at h
  split at h
  next => cases h
  next task heq =>
    split at h
    next e heq2 => cases h
    next heq2 =>
      split at h
      next e heq3 => cases h
      next heq3 =>
        split at h
        next h4 => cases h
        next h4 =>
          split at h
          next e heq5 => cases h
          next heq5 =>
            split at h
            next heq6 => cases h
            next a b heq6 =>
              simp only [Except.ok.injEq, Prod.mk.injEq] at h
              obtain ⟨t, hfind2, ht2⟩ := repoUpdate_ok s id p now a b heq6
              exact ⟨t, hfind2, h.2 ▸ ht2⟩

/-- Shape of a successful UpdateTaskStatus run: the task was found and
the result is the repository merge of a status-only patch over it. -/
lemma status_execute_ok_shape (s : TaskStore) (tid ns r : String) (now : Int)
    (s2 : TaskStore) (t2 : Task)
    (h : statusUC.execute s tid ns r now = .ok (s2, t2)) :
    ∃ t pns, findById s tid = some t ∧
      t2 = repoUpdateTask t { status := some pns } now := by
  unfold statusUC.execute at h
  split at h
  next => cases h
  next =>
  split at h
  next => cases h
  next =>
  split at h
  next => cases h
  next =>
  split at h
  next => cases h
  next pns heq =>
    split at h
    next => cases h
    next task heq2 =>
      split at h
      next e heq3 => cases h
      next heq3 =>
        split at h
        next e heq4 => cases h
        next heq4 =>
          split at h
          next heq5 => cases h
          next a b heq5 =>
            simp only [Except.ok.injEq, Prod.mk.injEq] at h
            obtain ⟨t, hfind2, ht2⟩ := repoUpdate_ok s tid _ now a b heq5
            exact ⟨t, pns, hfind2, h.2 ▸ ht2⟩

/-- Shape of a successful AssignTask run: the task was found and the
result is either the unchanged task (no-op) or the repository merge of an
assignee-only patch over it. -/
lemma assign_execute_ok_shape (s : TaskStore) (users : Option (String → Bool))
    (tid x : String) (now : Int) (s2 : TaskStore) (t2 : Task) (w : Nat)
    (h : assignUC.execute s users tid x now = .ok (s2, t2, w)) :
    ∃ t, findById s tid = some t ∧
      (t2 = t ∨ t2 = repoUpdateTask t { assigneeId := some x } now) := by
  unfold assignUC.execute at h
  split at h
  next => cases h
  next =>
  split at h
  next => cases h
  next =>
  split at h
  next => cases h
  next task heq =>
    split at h
    next => cases h
    next =>
      split at h
      next =>
        simp only [Except.ok.injEq, Prod.mk.injEq] at h
        exact ⟨task, heq, Or.inl h.2.1.symm⟩
      next =>
        split at h
        next heq5 => cases h
        next a b heq5 =>
          simp only [Except.ok.injEq, Prod.mk.injEq] at h
          obtain ⟨t, hfind2, ht2⟩ := repoUpdate_ok s tid _ now a b heq5
          exact ⟨t, hfind2, Or.inr (h.2.1 ▸ ht2)⟩

/-- C8 amended: across UpdateTask, UpdateTaskStatus and AssignTask the
persisted result keeps the id and createdAt of the stored task (the
repository strips those keys from every patch); UpdateTaskStatus and
AssignTask also keep createdBy (their patches never contain it), but an
UpdateTask patch carrying createdBy replaces the stored createdBy, so
createdBy is not immutable. -/
theorem c8_idCreatedBy :
    (∀ s users id p rid now s2 t2 t,
      updateUC.execute s users id p rid now = .ok (s2, t2) →
      findById s id = some t →
      t2.id = t.id ∧ t2.createdAt = t.createdAt ∧
        t2.createdBy = p.createdBy.getD t.createdBy) ∧
    (∀ s tid ns r now s2 t2 t,
      statusUC.execute s tid ns r now = .ok (s2, t2) →
      findById s tid = some t →
      t2.id = t.id ∧ t2.createdAt = t.createdAt ∧ t2.createdBy = t.createdBy) ∧
    (∀ s users tid x now s2 t2 w t,
      assignUC.execute s users tid x now = .ok (s2, t2, w) →
      findById s tid = some t →
      t2.id = t.id ∧ t2.createdAt = t.createdAt ∧ t2.createdBy = t.createdBy) := by
  refine ⟨?_, ?_, ?_⟩
  · intro s users id p rid now s2 t2 t h hfind
    obtain ⟨t3, hfind2, ht2⟩ := update_execute_ok_shape s users id p rid now s2 t2 h
    rw [hfind] at hfind2
    injection hfind2 with ht3
    subst ht3
    simp [ht2, repoUpdateTask]
  · intro s tid ns r now s2 t2 t h hfind
    obtain ⟨t3, pns, hfind2, ht2⟩ := status_execute_ok_shape s tid ns r now s2 t2 h
    rw [hfind] at hfind2
    injection hfind2 with ht3
    subst ht3
    simp [ht2, repoUpdateTask]
  · intro s users tid x now s2 t2 w t h hfind
    obtain ⟨t3, hfind2, ht2⟩ := assign_execute_ok_shape s users tid x now s2 t2 w h
    rw [hfind] at hfind2
    injection hfind2 with ht3
    subst ht3
    rcases ht2 with ht2 | ht2 <;> simp [ht2, repoUpdateTask]

/-- Witness for c8_idCreatedBy on a concrete accepted UpdateTask patch
containing createdBy: id and createdAt are preserved while createdBy
becomes the patch value. -/
theorem c8_idCreatedBy_witness :
    (⟨"t1", "Fix login bug", "", .todo, .medium, none, none, "p1", "u9", [], 0, 10⟩ : Task).id =
      (⟨"t1", "Fix login bug", "", .todo, .medium, none, none, "p1", "u1", [], 0, 0⟩ : Task).id ∧
    (⟨"t1", "Fix login bug", "", .todo, .medium, none, none, "p1", "u9", [], 0, 10⟩ : Task).createdAt =
      (⟨"t1", "Fix login bug", "", .todo, .medium, none, none, "p1", "u1", [], 0, 0⟩ : Task).createdAt ∧
    (⟨"t1", "Fix login bug", "", .todo, .medium, none, none, "p1", "u9", [], 0, 10⟩ : Task).createdBy =
      ({ createdBy := some "u9" } : TaskPatch).createdBy.getD
        (⟨"t1", "Fix login bug", "", .todo, .medium, none, none, "p1", "u1", [], 0, 0⟩ : Task).createdBy := by
  exact c8_idCreatedBy.1
    [⟨"t1", "Fix login bug", "", .todo, .medium, none, none, "p1", "u1", [], 0, 0⟩]
    none "t1" { createdBy := some "u9" } (some "u1") 10
    [⟨"t1", "Fix login bug", "", .todo, .medium, none, none, "p1", "u9", [], 0, 10⟩]
    ⟨"t1", "Fix login bug", "", .todo, .medium, none, none, "p1", "u9", [], 0, 10⟩
    ⟨"t1", "Fix login bug", "", .todo, .medium, none, none, "p1", "u1", [], 0, 0⟩
    rfl rfl

/-- C8 counterexample: a creator-issued UpdateTask patch containing
createdBy is accepted and the persisted task's createdBy changes from u1
to u9, refuting immutability of createdBy. -/
theorem c8_counterexample :
    updateUC.execute
      [⟨"t1", "Fix login bug", "", .todo, .medium, none, none, "p1", "u1", [], 0, 0⟩]
      none "t1" { createdBy := some "u9" } (some "u1") 10 =
      .ok ([⟨"t1", "Fix login bug", "", .todo, .medium, none, none, "p1", "u9", [], 0, 10⟩],
        ⟨"t1", "Fix login bug", "", .todo, .medium, none, none, "p1", "u9", [], 0, 10⟩) := rfl

/-- C9 counterexample: UpdateTaskStatus validates its scalar input before
loading the task, so on an absent task id with an unrecognized status
string it fails with ValidationError, not NotFoundError as the claim
requires. -/
theorem c9_counterexample :
    findById ([] : TaskStore) "missing-task" = none ∧
    statusUC.execute [] "missing-task" "archived" "u1" 0 =
      .error (.validation "Invalid status. Must be one of: todo, in_progress, review, done") := by
  exact ⟨rfl, rfl⟩

/-- C9 amended: with an absent task id, UpdateTask and DeleteTask fail
with NotFoundError before any permission or field check; UpdateTaskStatus
and AssignTask first validate their scalar arguments (non-empty ids and,
for UpdateTaskStatus, a recognized status string) and only then fail with
NotFoundError, an unrecognized status string instead failing with
ValidationError regardless of the store. -/
theorem c9_notFoundBeforeChecks :
    (∀ s users id p rid now, findById s id = none →
      updateUC.execute s users id p rid now =
        .error (.notFound ("Task with id " ++ id ++ " not found"))) ∧
    (∀ s id rid role, findById s id = none →
      deleteUC.execute s id rid role =
        .error (.notFound ("Task with id " ++ id ++ " not found"))) ∧
    (∀ s tid ns r now, tid ≠ "" → ns ≠ "" → r ≠ "" → parseStatus ns ≠ none →
      findById s tid = none →
      statusUC.execute s tid ns r now =
        .error (.notFound ("Task with id " ++ tid ++ " not found"))) ∧
    (∀ s users tid x now, tid ≠ "" → x ≠ "" → findById s tid = none →
      assignUC.execute s users tid x now =
        .error (.notFound ("Task with id " ++ tid ++ " not found"))) ∧
    (∀ s tid ns r now, tid ≠ "" → ns ≠ "" → r ≠ "" → parseStatus ns = none →
      statusUC.execute s tid ns r now =
        .error (.validation ("Invalid status. Must be one of: " ++
          joinStatuses taskStatusValues))) := by
  refine ⟨?_, ?_, ?_, ?_, ?_⟩
  · intro s users id p rid now hnone
    simp [updateUC.execute, hnone]
  · intro s id rid role hnone
    simp [deleteUC.execute, hnone]
  · intro s tid ns r now h1 h2 h3 hps hnone
    rcases hp : parseStatus ns with _ | pns
    · exact absurd hp hps
    · simp [statusUC.execute, h1, h2, h3, hp, hnone]
  · intro s users tid x now h1 h2 hnone
    simp [assignUC.execute, h1, h2, hnone]
  · intro s tid ns r now h1 h2 h3 hps
    simp [statusUC.execute, h1, h2, h3, hps]

/-- Witness for c9_notFoundBeforeChecks: a valid status string against an
empty store yields NotFoundError. -/
theorem c9_notFoundBeforeChecks_witness :
    statusUC.execute [] "t7" "in_progress" "u1" 0 =
      .error (.notFound ("Task with id " ++ "t7" ++ " not found")) := by
  exact c9_notFoundBeforeChecks.2.2.1 [] "t7" "in_progress" "u1" 0
    (by decide) (by decide) (by decide) (by intro h; cases h) rfl

/-- UpdateTask field validation returns ok or a ValidationError, never a
ForbiddenError. -/
lemma validateUpdateData_shape (p : TaskPatch) (now : Int) :
    updateUC.validateUpdateData p now = .ok () ∨
      ∃ m, updateUC.validateUpdateData p now = .error (.validation m) := by
  unfold updateUC.validateUpdateData
  repeat' split
  all_goals first | exact Or.inl rfl | exact Or.inr ⟨_, rfl⟩

/-- The update-path transition validator returns ok or a ValidationError. -/
lemma updateTransition_shape (cur ns : TaskStatus) :
    updateUC.validateStatusTransition cur ns = .ok () ∨
      ∃ m, updateUC.validateStatusTransition cur ns = .error (.validation m) := by
  unfold updateUC.validateStatusTransition
  split
  · exact Or.inl rfl
  · exact Or.inr ⟨_, rfl⟩

/-- C10: with no requesterId supplied, the permission step of UpdateTask
and DeleteTask is skipped entirely: neither can fail with ForbiddenError,
DeleteTask deletes any existing task, and UpdateTask applies any patch
that passes the field, assignee and transition checks. -/
theorem c10_noActorSkipsPermissions :
    (∀ s users id p now m,
      updateUC.execute s users id p none now ≠ .error (.forbidden m)) ∧
    (∀ s id role m, deleteUC.execute s id none role ≠ .error (.forbidden m)) ∧
    (∀ s id role t, findById s id = some t →
      deleteUC.execute s id none role = .ok (repoDelete s id)) ∧
    (∀ s users id p now t, findById s id = some t →
      updateUC.validateUpdateData p now = .ok () →
      assigneeMissing users p.assigneeId = false →
      (match p.status with
        | some ns => updateUC.validateStatusTransition t.status ns
        | none => (.ok () : Except AppError Unit)) = .ok () →
      updateUC.execute s users id p none now =
        .ok (replaceFirst s id (repoUpdateTask t p now), repoUpdateTask t p now)) := by
  refine ⟨?_, ?_, ?_, ?_⟩
  · intro s users id p now m h
    unfold updateUC.execute at h
    rcases hf : findById s id with _ | task <;> rw [hf] at h
    · simp at h
    · rcases validateUpdateData_shape p now with hs | ⟨m2, hs⟩ <;>
        cases ham : assigneeMissing users p.assigneeId
      · rcases hts : p.status with _ | ns
        · rcases hru : repoUpdate s id p now with _ | pr <;>
            simp [optTruthy, hs, ham, hts, hru] at h
        · rcases updateTransition_shape task.status ns with hs2 | ⟨m3, hs2⟩ <;>
            rcases hru : repoUpdate s id p now with _ | pr <;>
            simp [optTruthy, hs, ham, hts, hs2, hru] at h
      · simp [optTruthy, hs, ham] at h
      · simp [optTruthy, hs] at h
      · simp [optTruthy, hs] at h
  · intro s id role m h
    unfold deleteUC.execute at h
    rcases hf : findById s id with _ | task <;> rw [hf] at h
    · simp at h
    · simp [optTruthy] at h
  · intro s id role t hfind
    unfold deleteUC.execute
    rw [hfind]
    rfl
  · intro s users id p now t hfind hv ham ht
    unfold updateUC.execute
    rw [hfind]
    simp [optTruthy, hv, ham, ht, repoUpdate, hfind]

/-- Witness for c10_noActorSkipsPermissions: with no requester, deleting
and a title-only update of a concrete task both succeed. -/
theorem c10_noActorSkipsPermissions_witness :
    deleteUC.execute
      [⟨"t1", "Fix login bug", "", .todo, .medium, none, some "u2", "p1", "u1", [], 0, 0⟩]
      "t1" none none =
      .ok (repoDelete
        [⟨"t1", "Fix login bug", "", .todo, .medium, none, some "u2", "p1", "u1", [], 0, 0⟩]
        "t1") ∧
    updateUC.execute
      [⟨"t1", "Fix login bug", "", .todo, .medium, none, some "u2", "p1", "u1", [], 0, 0⟩]
      none "t1" { title := some "Patched title" } none 4 =
      .ok (replaceFirst
        [⟨"t1", "Fix login bug", "", .todo, .medium, none, some "u2", "p1", "u1", [], 0, 0⟩]
        "t1" (repoUpdateTask
          ⟨"t1", "Fix login bug", "", .todo, .medium, none, some "u2", "p1", "u1", [], 0, 0⟩
          { title := some "Patched title" } 4),
        repoUpdateTask
          ⟨"t1", "Fix login bug", "", .todo, .medium, none, some "u2", "p1", "u1", [], 0, 0⟩
          { title := some "Patched title" } 4) := by
  constructor
  · exact c10_noActorSkipsPermissions.2.2.1
      [⟨"t1", "Fix login bug", "", .todo, .medium, none, some "u2", "p1", "u1", [], 0, 0⟩]
      "t1" none
      ⟨"t1", "Fix login bug", "", .todo, .medium, none, some "u2", "p1", "u1", [], 0, 0⟩
      rfl
  · exact c10_noActorSkipsPermissions.2.2.2
      [⟨"t1", "Fix login bug", "", .todo, .medium, none, some "u2", "p1", "u1", [], 0, 0⟩]
      none "t1" { title := some "Patched title" } 4
      ⟨"t1", "Fix login bug", "", .todo, .medium, none, some "u2", "p1", "u1", [], 0, 0⟩
      rfl rfl rfl rfl

end TaskMgmt
